import Mathlib

/-!
Shallow embedding of the Bruker BES3T decoder in
`src/data_management/data_loader.py` (functions `read_dsc_file`,
`parse_field_params`, `get_matrix`, `load`).

Modelling conventions:
* Python floats are modelled exactly by `PyF`: a rational for finite values
  plus `pinf`, `ninf`, `nan` for the non-finite IEEE values, with the
  arithmetic the decoder performs on them.  Finite arithmetic is exact
  (rational) arithmetic; rounding of binary floating point is abstracted.
* Binary data files are modelled as the list of (finite) values they decode
  to under the resolved element type and byte order; `numpy.fromfile` with a
  negative count reads the whole file, with a non-negative count it reads at
  most that many values.
* Python dicts of strings are association lists with in-place overwrite.
* Python `int(...)` and `float(...)` string parsing are modelled on the
  decimal grammar (sign, digits, point, exponent, and `inf`/`infinity`/`nan`
  for `float`); digit-group underscores are not modelled.
* The `warnings.warn` side channel is a structured list of `Warn` values
  returned alongside the result; Python exceptions are the `Except PyErr`
  error monad.
-/

namespace SpektroDb

/-- A Python float value: exact finite rational, or one of the
IEEE non-finite values produced by `float("inf")` / `float("nan")`. -/
inductive PyF where
  | fin (q : ℚ)
  | pinf
  | ninf
  | nan
deriving DecidableEq

namespace PyF

def neg : PyF → PyF
  | fin q => fin (-q)
  | pinf => ninf
  | ninf => pinf
  | nan => nan

def add : PyF → PyF → PyF
  | fin a, fin b => fin (a + b)
  | fin _, pinf => pinf
  | fin _, ninf => ninf
  | pinf, fin _ => pinf
  | ninf, fin _ => ninf
  | pinf, pinf => pinf
  | ninf, ninf => ninf
  | pinf, ninf => nan
  | ninf, pinf => nan
  | nan, _ => nan
  | _, nan => nan

def sub (a b : PyF) : PyF := add a (neg b)

def mul : PyF → PyF → PyF
  | fin a, fin b => fin (a * b)
  | fin a, pinf => if 0 < a then pinf else if a < 0 then ninf else nan
  | fin a, ninf => if 0 < a then ninf else if a < 0 then pinf else nan
  | pinf, fin b => if 0 < b then pinf else if b < 0 then ninf else nan
  | ninf, fin b => if 0 < b then ninf else if b < 0 then pinf else nan
  | pinf, pinf => pinf
  | ninf, ninf => pinf
  | pinf, ninf => ninf
  | ninf, pinf => ninf
  | nan, _ => nan
  | _, nan => nan

def div : PyF → PyF → PyF
  | fin a, fin b =>
      if b = 0 then (if a = 0 then nan else if 0 < a then pinf else ninf)
      else fin (a / b)
  | fin _, pinf => fin 0
  | fin _, ninf => fin 0
  | pinf, fin b => if 0 ≤ b then pinf else ninf
  | ninf, fin b => if 0 ≤ b then ninf else pinf
  | pinf, pinf => nan
  | pinf, ninf => nan
  | ninf, pinf => nan
  | ninf, ninf => nan
  | nan, _ => nan
  | _, nan => nan

/-- The Python comparison `x == 0` on a float. -/
def eqZero : PyF → Bool
  | fin q => decide (q = 0)
  | _ => false

/-- The Python comparison `x > 0` on a float. -/
def gtZero : PyF → Bool
  | fin q => decide (0 < q)
  | pinf => true
  | _ => false

end PyF

instance : Add PyF := ⟨PyF.add⟩
instance : Sub PyF := ⟨PyF.sub⟩
instance : Mul PyF := ⟨PyF.mul⟩
instance : Div PyF := ⟨PyF.div⟩
instance : Neg PyF := ⟨PyF.neg⟩

/-- String-keyed Python dict (insertion ordered, values are strings). -/
abbrev Dict := List (String × String)

/-- `d[k] = v` on a Python dict: overwrite in place, else append. -/
def dictSet (d : Dict) (k v : String) : Dict :=
  match d with
  | [] => [(k, v)]
  | (k0, v0) :: rest => if k0 = k then (k, v) :: rest else (k0, v0) :: dictSet rest k v

/-- `d.get(k)` on a Python dict. -/
def dictGet (d : Dict) (k : String) : Option String :=
  match d with
  | [] => none
  | (k0, v0) :: rest => if k0 = k then some v0 else dictGet rest k

/-- Python `str.strip()` on the character list. -/
def trimChars (cs : List Char) : List Char :=
  ((cs.dropWhile Char.isWhitespace).reverse.dropWhile Char.isWhitespace).reverse

/-- Python `str.strip()`. -/
def pyStrip (s : String) : String := String.mk (trimChars s.data)

/-- Python `str.upper()` (ASCII, as used on the descriptor key codes). -/
def asciiUpper (s : String) : String := String.mk (s.data.map Char.toUpper)

/-- Python `str.lower()` (ASCII). -/
def asciiLower (s : String) : String := String.mk (s.data.map Char.toLower)

/-- Python `s.split(",")` on the character list: commas split, empty parts kept. -/
def splitCommaChars : List Char → List (List Char)
  | [] => [[]]
  | c :: rest =>
      if c = ',' then [] :: splitCommaChars rest
      else
        match splitCommaChars rest with
        | g :: gs => (c :: g) :: gs
        | [] => [[c]]

/-- Python `s.split(",")`. -/
def splitComma (s : String) : List String := (splitCommaChars s.data).map String.mk

/-- Numeric value of a digit list (most significant first). -/
def charsToNat (cs : List Char) : ℕ :=
  cs.foldl (fun a c => a * 10 + (c.toNat - 48)) 0

/-- Non-empty all-digit character list. -/
def allDigits (cs : List Char) : Bool :=
  decide (cs ≠ []) && cs.all Char.isDigit

/-- Parse `[+-]?digits` (for exponents and for Python `int(...)` bodies). -/
def parseSignedNat (cs : List Char) : Option (Bool × ℕ) :=
  match cs with
  | '+' :: rest => if allDigits rest then some (false, charsToNat rest) else none
  | '-' :: rest => if allDigits rest then some (true, charsToNat rest) else none
  | _ => if allDigits cs then some (false, charsToNat cs) else none

/-- Parse an unsigned decimal mantissa `digits[.digits?] | .digits`,
the mantissa language of the module's `_NUMBER_RE` regex. -/
def parseMantissa (cs : List Char) : Option ℚ :=
  let ip := cs.takeWhile (fun c => decide (c ≠ '.'))
  let rest := cs.dropWhile (fun c => decide (c ≠ '.'))
  match rest with
  | [] => if allDigits ip then some ((charsToNat ip : ℚ)) else none
  | _ :: frac =>
      if ip.isEmpty then
        if allDigits frac then some ((charsToNat frac : ℚ) / 10 ^ frac.length) else none
      else
        if allDigits ip && frac.all Char.isDigit then
          some ((charsToNat ip : ℚ) + (charsToNat frac : ℚ) / 10 ^ frac.length)
        else none

/-- Parse an unsigned decimal literal `mantissa ([eE][+-]?digits)?` exactly. -/
def parseDecUnsigned (cs : List Char) : Option ℚ :=
  let mantPart := cs.takeWhile (fun c => decide (c ≠ 'e') && decide (c ≠ 'E'))
  let expPart := cs.dropWhile (fun c => decide (c ≠ 'e') && decide (c ≠ 'E'))
  match expPart with
  | [] => parseMantissa mantPart
  | _ :: ex =>
      match parseMantissa mantPart, parseSignedNat ex with
      | some m, some (sgn, e) => some (if sgn then m / 10 ^ e else m * 10 ^ e)
      | _, _ => none

/-- Parse `[+-]?` followed by an unsigned decimal literal: the exact language
of the module's `_NUMBER_RE` regex, with the exact value `float(...)` would
produce (rounding abstracted to the exact rational). -/
def parseDecSigned (cs : List Char) : Option ℚ :=
  match cs with
  | '+' :: rest => parseDecUnsigned rest
  | '-' :: rest => (parseDecUnsigned rest).map Neg.neg
  | _ => parseDecUnsigned cs

/-- Python `float(s)` on a string: strips whitespace, accepts a sign, a
decimal literal, or (case-insensitively) `inf`/`infinity`/`nan`.
`none` models `ValueError`. -/
def pyFloat? (s : String) : Option PyF :=
  let cs := trimChars s.data
  let sgnBody : Bool × List Char :=
    match cs with
    | '+' :: rest => (false, rest)
    | '-' :: rest => (true, rest)
    | _ => (false, cs)
  let sgn := sgnBody.1
  let body := sgnBody.2
  let lowerBody := body.map Char.toLower
  if lowerBody = "inf".data ∨ lowerBody = "infinity".data then
    some (if sgn then PyF.ninf else PyF.pinf)
  else if lowerBody = "nan".data then some PyF.nan
  else (parseDecUnsigned body).map (fun q => PyF.fin (if sgn then -q else q))

/-- Python `int(s)` on a string: strips whitespace, accepts `[+-]?digits`.
`none` models `ValueError`. -/
def pyInt? (s : String) : Option ℤ :=
  match parseSignedNat (trimChars s.data) with
  | some (sgn, n) => some (if sgn then -(n : ℤ) else (n : ℤ))
  | none => none

/-- Exception tags for the `ValueError`s raised by `load` / `get_matrix`,
one per raise site. -/
inductive VTag where
  | dims         -- could not parse XPTS/YPTS/ZPTS
  | xptsZero     -- XPTS is missing or zero
  | bseq         -- unknown BSEQ value
  | irfmtNoData  -- IRFMT is A, 0 or N
  | irfmtUnknown -- unknown IRFMT value
  | irfmtMissing -- IRFMT keyword not found
  | oddComplex   -- odd number of raw values for complex data
  | reshape      -- could not reshape data
deriving DecidableEq

/-- Tags for the `IOError`s. -/
inductive IoTag where
  | readFail   -- error reading the descriptor file
  | shortRead  -- fewer data points than expected
deriving DecidableEq

/-- The Python exceptions the decoder raises. -/
inductive PyErr where
  | fileNotFound
  | ioError (t : IoTag)
  | keyError (k : String)
  | valueError (t : VTag)
  | notImplemented
deriving DecidableEq

/-- The structured diagnostics replacing the `warnings.warn` side channel. -/
inductive Warn where
  | noIKKF                      -- IKKF not found, assuming REAL
  | noBSEQ                      -- BSEQ not found, assuming big-endian
  | irfmtMismatch               -- IRFMT and IIFMT differ
  | multiChannel                -- more than one data value per point
  | truncated                   -- read more data points than expected
  | companionFmt (ax : String)  -- unreadable companion file format code
  | companionShort (ax : String)  -- companion file has too few values
  | companionMissing (ax : String)  -- companion file not found
  | minWid (ax : String)        -- could not read MIN/WID, using index axis
  | zeroWid (ax : String)       -- WID is zero, using index axis
  | scaleNPrescaled             -- data already averaged (SctNorm)
  | scaleNInvalid               -- AVGS missing, zero or invalid
  | scaleGInvalid               -- RCAG missing or invalid
  | scaleCInvalid               -- SPTP missing, zero or invalid
  | scalePInvalid               -- MWPW missing, zero or invalid
  | scalePNotCw                 -- P scaling requested on a non-CW experiment
  | scaleTZero                  -- STMP is zero
  | scaleTInvalid               -- STMP missing or invalid
deriving DecidableEq

/-- State of a file on disk, as the decoder can observe it. -/
inductive FileState (α : Type) where
  | missing
  | unreadable
  | content (a : α)

/-- The slice of the filesystem a `load` call reads: the descriptor file
(as its list of text lines), the binary data file and the optional
companion axis files (as the typed values they decode to). -/
structure FS where
  dsc : FileState (List String)
  dta : Option (List ℚ)
  compX : Option (List ℚ)
  compY : Option (List ℚ)
  compZ : Option (List ℚ)

/-- Does the character list end in a backslash (`line.endswith("\\")`)? -/
def lastIsBackslash (cs : List Char) : Bool :=
  decide (cs.getLast? = some '\\')

/-- Strip all trailing backslashes (the `read_dsc_file` continuation loop
once the input is exhausted: `line = line[:-1]` while it ends in one). -/
def stripTrailingBS (cs : List Char) : List Char :=
  (cs.reverse.dropWhile (fun c => decide (c = '\\'))).reverse

/-- Python `line.replace("\\n", "\n")` (left-to-right, non-overlapping). -/
def replEscN : List Char → List Char
  | '\\' :: 'n' :: rest => '\n' :: replEscN rest
  | c :: rest => c :: replEscN rest
  | [] => []

/-- The line-continuation pass of `read_dsc_file`: each physical line is
stripped; while the current logical line ends in a backslash the backslash
is removed and the next stripped physical line is appended; the finished
logical line has its escaped newlines replaced. -/
def processAux : Option (List Char) → List String → List String
  | none, [] => []
  | some cur, [] => [String.mk (replEscN (stripTrailingBS cur))]
  | none, l :: ls => processAux (some (trimChars l.data)) ls
  | some cur, l :: ls =>
      if lastIsBackslash cur then processAux (some (cur.dropLast ++ trimChars l.data)) ls
      else String.mk (replEscN cur) :: processAux (some (trimChars l.data)) ls

/-- All processed logical lines of a descriptor file. -/
def processLines (lines : List String) : List String := processAux none lines

/-- Python `line.split(maxsplit=1)` followed by `.strip()` on the value:
first whitespace-delimited token and the stripped remainder. -/
def splitKV (line : String) : String × String :=
  let cs := line.data.dropWhile Char.isWhitespace
  let key := cs.takeWhile (fun c => ¬ c.isWhitespace)
  let rest := cs.dropWhile (fun c => ¬ c.isWhitespace)
  (String.mk key, String.mk (trimChars rest))

/-- Strip one matching pair of surrounding single quotes from a value. -/
def stripQuotes (v : String) : String :=
  if 2 ≤ v.data.length ∧ v.data.head? = some '\'' ∧ v.data.getLast? = some '\'' then
    String.mk (v.data.drop 1).dropLast
  else v

/-- The key/value loop of `read_dsc_file`: skip blank lines, stop at the
`#MHL` manipulation-history marker, skip keys not starting with a letter,
strip quotes, store into the dict. -/
def parseDscLoop (d : Dict) : List String → Dict
  | [] => d
  | line :: rest =>
      if line = "" then parseDscLoop d rest
      else
        let kv := splitKV line
        if kv.1 = "" then parseDscLoop d rest
        else if asciiUpper kv.1 = "#MHL" then d
        else if ¬ (kv.1.data.headD ' ').isAlpha then parseDscLoop d rest
        else parseDscLoop (dictSet d kv.1 (stripQuotes kv.2)) rest

/-- The Y-axis alias block at the end of `read_dsc_file`:
`if parameters.get("YNAM"): YAXIS_NAME = YNAM; YAXIS_UNIT = parameters["YUNI"]`
(the unguarded `parameters["YUNI"]` lookup can raise `KeyError`). -/
def aliasStepY (d : Dict) : Except PyErr Dict :=
  match dictGet d "YNAM" with
  | some v =>
      if v = "" then .ok d
      else
        match dictGet d "YUNI" with
        | some u => .ok (dictSet (dictSet d "YAXIS_NAME" v) "YAXIS_UNIT" u)
        | none => .error (.keyError "YUNI")
  | none => .ok d

/-- The X-axis alias block of `read_dsc_file`, then the Y-axis one:
`if parameters.get("XNAM"): XAXIS_NAME = XNAM; XAXIS_UNIT = parameters["XUNI"]`
(the unguarded `parameters["XUNI"]` lookup can raise `KeyError`). -/
def aliasStep (d : Dict) : Except PyErr Dict :=
  match dictGet d "XNAM" with
  | some v =>
      if v = "" then aliasStepY d
      else
        match dictGet d "XUNI" with
        | some u => aliasStepY (dictSet (dictSet d "XAXIS_NAME" v) "XAXIS_UNIT" u)
        | none => .error (.keyError "XUNI")
  | none => aliasStepY d

/-- `read_dsc_file`: `FileNotFoundError` if the descriptor file does not
exist, `IOError` if reading it fails, otherwise the parsed key/value dict
with the axis-name/unit aliases cross-populated. -/
def readDscFile (f : FileState (List String)) : Except PyErr Dict :=
  match f with
  | .missing => .error .fileNotFound
  | .unreadable => .error (.ioError .readFail)
  | .content lines => aliasStep (parseDscLoop [] (processLines lines))

/-- A coerced parameter value: `int`, `float` or the original string. -/
inductive PVal where
  | s (v : String)
  | i (v : ℤ)
  | f (v : ℚ)
deriving DecidableEq

/-- `parse_field_params` on one value: try `int(value)`, then the
`_NUMBER_RE` regex gate followed by `float(value)`, else keep the string. -/
def coerceVal (v : String) : PVal :=
  match pyInt? v with
  | some n => .i n
  | none =>
      match parseDecSigned v.data with
      | some q => .f q
      | none => .s v

/-- `parse_field_params` over the whole descriptor dict. -/
def parseFieldParams (d : Dict) : List (String × PVal) :=
  d.map (fun kv => (kv.1, coerceVal kv.2))

/-- Complex-channel resolution in `load`: the comma-separated IKKF value
gives one flag per channel (`CPLX` after strip/upper); a missing IKKF
defaults to one real channel with a warning.  Returns
(per-channel flags, number of data values, warnings). -/
def resolveComplex (d : Dict) : List Bool × ℕ × List Warn :=
  match dictGet d "IKKF" with
  | some v =>
      let parts := splitComma v
      (parts.map (fun p => decide (asciiUpper (pyStrip p) = "CPLX")), parts.length, [])
  | none => ([false], 1, [.noIKKF])

/-- `int(parameters.get(key, dflt))` for one dimension key:
`some` the parsed integer, `none` a `ValueError`/`TypeError`. -/
def dimValue (d : Dict) (key : String) (dflt : ℤ) : Option ℤ :=
  match dictGet d key with
  | none => some dflt
  | some s => pyInt? s

/-- Dimension resolution in `load`:
`nx = int(parameters.get("XPTS", 0))`, `ny`/`nz` defaulting to 1; a parse
failure raises `ValueError` and `nx == 0` raises the XPTS error. -/
def resolveDims (d : Dict) : Except PyErr (ℤ × ℤ × ℤ) :=
  match dimValue d "XPTS" 0, dimValue d "YPTS" 1, dimValue d "ZPTS" 1 with
  | some nx, some ny, some nz =>
      if nx = 0 then .error (.valueError .xptsZero) else .ok (nx, ny, nz)
  | _, _, _ => .error (.valueError .dims)

/-- Resolved byte order. -/
inductive ByteOrder where
  | be  -- "ieee-be"
  | le  -- "ieee-le"
deriving DecidableEq

/-- Byte-order resolution in `load`: BSEQ upper-cased must be `BIG` or
`LIT`; any other value raises `ValueError`; a missing BSEQ defaults to
big-endian with a warning. -/
def resolveByteOrder (d : Dict) : Except PyErr (ByteOrder × List Warn) :=
  match dictGet d "BSEQ" with
  | some v =>
      let bseqVal := asciiUpper v
      if bseqVal = "BIG" then .ok (.be, [])
      else if bseqVal = "LIT" then .ok (.le, [])
      else .error (.valueError .bseq)
  | none => .ok (.be, [.noBSEQ])

/-- Element-format resolution in `load`: the first comma-separated IRFMT
entry, stripped and upper-cased, is mapped through the fixed code table;
`A`/`0`/`N` and unknown codes raise `ValueError`, as does a missing IRFMT.
Returns the numpy dtype code string. -/
def resolveFormat (d : Dict) : Except PyErr String :=
  match dictGet d "IRFMT" with
  | none => .error (.valueError .irfmtMissing)
  | some v =>
      let code := asciiUpper (pyStrip ((splitComma v).headD ""))
      if code = "C" then .ok "i1"
      else if code = "S" then .ok "i2"
      else if code = "I" then .ok "i4"
      else if code = "F" then .ok "f4"
      else if code = "D" then .ok "f8"
      else if code = "A" ∨ code = "0" ∨ code = "N" then .error (.valueError .irfmtNoData)
      else .error (.valueError .irfmtUnknown)

/-- The IRFMT/IIFMT comparison in `load`: when IIFMT is present and any
channel is complex, a mismatch of the first entries is only a warning. -/
def iifmtWarn (d : Dict) (isCplx : List Bool) : List Warn :=
  match dictGet d "IIFMT" with
  | some v =>
      if isCplx.any id then
        let iv := asciiUpper (pyStrip ((splitComma v).headD ""))
        let rv := asciiUpper (pyStrip ((splitComma ((dictGet d "IRFMT").getD "")).headD ""))
        if iv ≠ rv then [.irfmtMismatch] else []
      else []
  | none => []

/-- `np.arange(n)` as a float axis. -/
def arangePyF (n : ℕ) : List PyF := (List.range n).map (fun k : ℕ => PyF.fin (k : ℚ))

/-- `np.linspace(start, stop, num)` with endpoint: `num` values
`k * step + start` with `step = (stop - start) / (num - 1)`, the last set
exactly to `stop`. -/
def linspacePyF (start stop : PyF) (num : ℕ) : List PyF :=
  let step := (stop - start) / PyF.fin ((num - 1 : ℕ) : ℚ)
  (List.range num).map (fun k => if k = num - 1 then stop else PyF.fin (k : ℚ) * step + start)

/-- The linear-axis block of `load` for one axis: read `{ax}MIN` and
`{ax}WID` with `float(...)`; a `KeyError`/`ValueError` falls back to the
index axis with a warning, a zero width falls back to the index axis with
a warning, otherwise the axis is `linspace(min, min + wid, dim_size)`. -/
def linearAxis (d : Dict) (ax : String) (dimSize : ℤ) : List PyF × List Warn :=
  let fallback := (arangePyF dimSize.toNat, [Warn.minWid ax])
  match dictGet d (ax ++ "MIN") with
  | none => fallback
  | some ms =>
      match pyFloat? ms with
      | none => fallback
      | some m =>
          match dictGet d (ax ++ "WID") with
          | none => fallback
          | some ws =>
              match pyFloat? ws with
              | none => fallback
              | some w =>
                  if 1 < dimSize then
                    if w.eqZero then (arangePyF dimSize.toNat, [Warn.zeroWid ax])
                    else (linspacePyF m (m + w) dimSize.toNat, [])
                  else if dimSize = 1 then ([m], [])
                  else ([], [])

/-- The per-axis body of the abscissa loop in `load`: axes of size at most
one are skipped; the `{ax}TYP` key (default `IDX`) selects `IGD` (companion
file, falling back to the linear case with a warning on an unknown format
code, a missing companion file, or a short read), `IDX` (linear) or `NTUP`
(`NotImplementedError`); any other type builds no axis.  Returns the axis
values when the axis was defined. -/
def buildAxis (comp : Option (List ℚ)) (d : Dict) (ax : String) (dimSize : ℤ) :
    Except PyErr (Option (List PyF) × List Warn) :=
  if dimSize ≤ 1 then .ok (none, [])
  else
    let axisType := (dictGet d (ax ++ "TYP")).getD "IDX"
    if axisType = "IGD" then
      let fmtChar := asciiUpper ((dictGet d (ax ++ "FMT")).getD "D")
      if ¬ (fmtChar = "D" ∨ fmtChar = "F" ∨ fmtChar = "I" ∨ fmtChar = "S") then
        let la := linearAxis d ax dimSize
        .ok (some la.1, Warn.companionFmt ax :: la.2)
      else
        match comp with
        | some content =>
            let axisData := content.take dimSize.toNat
            if axisData.length = dimSize.toNat then .ok (some (axisData.map PyF.fin), [])
            else
              let la := linearAxis d ax dimSize
              .ok (some la.1, Warn.companionShort ax :: la.2)
        | none =>
            let la := linearAxis d ax dimSize
            .ok (some la.1, Warn.companionMissing ax :: la.2)
    else if axisType = "IDX" then
      let la := linearAxis d ax dimSize
      .ok (some la.1, la.2)
    else if axisType = "NTUP" then .error .notImplemented
    else .ok (none, [])

/-- The consolidated abscissa: one axis is returned directly, several as an
ordered list, none as an absent result. -/
inductive Abscissa where
  | nothing
  | one (xs : List PyF)
  | several (xss : List (List PyF))
deriving DecidableEq

/-- The abscissa construction of `load` over the three axis positions,
followed by the consolidation step. -/
def buildAbscissa (fs : FS) (d : Dict) (nx ny nz : ℤ) :
    Except PyErr (Abscissa × List Warn) :=
  (buildAxis fs.compX d "X" nx).bind (fun awx =>
  (buildAxis fs.compY d "Y" ny).bind (fun awy =>
  (buildAxis fs.compZ d "Z" nz).bind (fun awz =>
    let defined := [awx.1, awy.1, awz.1].filterMap id
    let absc := match defined with
      | [] => Abscissa.nothing
      | [a] => Abscissa.one a
      | a :: b :: rest => Abscissa.several (a :: b :: rest)
    .ok (absc, awx.2 ++ awy.2 ++ awz.2))))

/-- The element values of the data matrix: a real or a complex flat
sequence (in C storage order; reshaping never reorders the flat values). -/
inductive MatVals where
  | real (xs : List PyF)
  | cplx (xs : List (PyF × PyF))
deriving DecidableEq

/-- `np.ndarray.size` of the values. -/
def MatVals.size : MatVals → ℕ
  | .real xs => xs.length
  | .cplx xs => xs.length

/-- The data matrix: flat values plus the (squeezed) shape. -/
structure PyMatrix where
  vals : MatVals
  shape : List ℤ
deriving DecidableEq

def PyMatrix.size (m : PyMatrix) : ℕ := m.vals.size

/-- `.real` of element `k` (a real numpy array has the values themselves,
a complex one the first component). -/
def PyMatrix.entryRe (m : PyMatrix) (k : ℕ) : PyF :=
  match m.vals with
  | .real xs => xs.getD k PyF.nan
  | .cplx xs => (xs.getD k (PyF.nan, PyF.nan)).1

/-- `.imag` of element `k` (zero for a real numpy array). -/
def PyMatrix.entryIm (m : PyMatrix) (k : ℕ) : PyF :=
  match m.vals with
  | .real _ => PyF.fin 0
  | .cplx xs => (xs.getD k (PyF.nan, PyF.nan)).2

/-- Map a scalar operation over every element (both components when
complex). -/
def MatVals.map1 (f : PyF → PyF) : MatVals → MatVals
  | .real xs => .real (xs.map f)
  | .cplx xs => .cplx (xs.map (fun p => (f p.1, f p.2)))

/-- Elementwise `data / r` for a real scalar `r`. -/
def PyMatrix.divBy (m : PyMatrix) (r : PyF) : PyMatrix :=
  ⟨m.vals.map1 (fun x => x / r), m.shape⟩

/-- Elementwise `data * r` for a real scalar `r`. -/
def PyMatrix.mulBy (m : PyMatrix) (r : PyF) : PyMatrix :=
  ⟨m.vals.map1 (fun x => x * r), m.shape⟩

/-- `np.fromfile(..., count=n)`: at most `n` values for a non-negative
count, the whole file for a negative count. -/
def npFromFile (content : List ℚ) (count : ℤ) : List ℚ :=
  if count < 0 then content else content.take count.toNat

/-- Python slicing `xs[:n]` with a possibly negative `n`. -/
def pySliceTo (xs : List ℚ) (n : ℤ) : List ℚ :=
  if 0 ≤ n then xs.take n.toNat else xs.take ((xs.length : ℤ) + n).toNat

/-- Deinterleave `raw[::2] + 1j * raw[1::2]` into (real, imag) pairs. -/
def deinterleave : List ℚ → List (PyF × PyF)
  | r :: i :: rest => (PyF.fin r, PyF.fin i) :: deinterleave rest
  | _ => []

/-- `np.reshape` semantics on the shape alone: with no negative entry the
product must equal the size; one negative entry is an unknown dimension
inferred from the size; several negative entries fail. -/
def npReshape (shape : List ℤ) (size : ℕ) : Option (List ℤ) :=
  if shape.all (fun dv => decide (0 ≤ dv)) then
    if shape.prod = (size : ℤ) then some shape else none
  else if (shape.filter (fun dv => decide (dv < 0))).length = 1 then
    let p := (shape.filter (fun dv => decide (0 ≤ dv))).prod
    if p ≠ 0 ∧ (size : ℤ) % p = 0 then
      some (shape.map (fun dv => if dv < 0 then (size : ℤ) / p else dv))
    else none
  else none

/-- `get_matrix`: check the data file exists, early-return an empty array
for a zero total, read `total` (doubled when complex) typed values, fail on
a short read, warn and truncate on a long read, deinterleave when complex
(odd raw count is fatal), reshape to the reversed dims with size-1 axes
dropped, squeeze, and re-expand a scalar to one element.  The dtype code
and byte order determine how the file bytes decode; that decoding is
abstracted into the file model, so they are unused here. -/
def getMatrix (file : Option (List ℚ)) (dims : List ℤ) (fmtCode : String)
    (bo : ByteOrder) (isCplx : Bool) : Except PyErr (PyMatrix × List Warn) :=
  match file with
  | none => .error .fileNotFound
  | some content =>
      let _ := fmtCode
      let _ := bo
      let total : ℤ := dims.prod
      if total = 0 then .ok (⟨.real [], [0]⟩, [])
      else
        let nToRead : ℤ := if isCplx then total * 2 else total
        let raw0 := npFromFile content nToRead
        if (raw0.length : ℤ) < nToRead then .error (.ioError .shortRead)
        else
          let rawW : List ℚ × List Warn :=
            if nToRead < (raw0.length : ℤ) then (pySliceTo raw0 nToRead, [Warn.truncated])
            else (raw0, [])
          let raw := rawW.1
          let valsE : Except PyErr MatVals :=
            if isCplx then
              if raw.length % 2 ≠ 0 then .error (.valueError .oddComplex)
              else .ok (.cplx (deinterleave raw))
            else .ok (.real (raw.map PyF.fin))
          valsE.bind (fun vals =>
            let shapeOrder := dims.reverse.filter (fun dv => decide (1 < dv))
            let shape0 := if shapeOrder = [] then [total] else shapeOrder
            match npReshape shape0 vals.size with
            | none => .error (.valueError .reshape)
            | some rs =>
                let sq := rs.filter (fun dv => decide (dv ≠ 1))
                let finalShape := if sq = [] then [1] else sq
                .ok (⟨vals, finalShape⟩, rawW.2))

/-- The `n` scaling step: requested by an `n` in the scaling string; with a
valid positive AVGS count the data is divided by it unless the SctNorm
pre-averaged flag is set (warning, unchanged); an invalid count warns. -/
def stepN (scaling : String) (nAvgs : Option ℤ) (prescaled : Bool) (data : PyMatrix) :
    PyMatrix × List Warn :=
  if scaling.data.contains 'n' then
    match nAvgs with
    | some n =>
        if 0 < n then
          if prescaled then (data, [.scaleNPrescaled])
          else (data.divBy (PyF.fin (n : ℚ)), [])
        else (data, [.scaleNInvalid])
    | none => (data, [.scaleNInvalid])
  else (data, [])

/-- The `G` scaling step (CW only): divide by the derived receiver gain
when present and nonzero, else warn. -/
def stepG (scaling : String) (isCw : Bool) (gain : Option PyF) (data : PyMatrix) :
    PyMatrix × List Warn :=
  if isCw ∧ scaling.data.contains 'G' then
    match gain with
    | some g => if ¬ g.eqZero then (data.divBy g, []) else (data, [.scaleGInvalid])
    | none => (data, [.scaleGInvalid])
  else (data, [])

/-- The `c` scaling step (CW only): divide by the sampling time in
milliseconds when present and positive, else warn. -/
def stepC (scaling : String) (isCw : Bool) (sptpMs : Option PyF) (data : PyMatrix) :
    PyMatrix × List Warn :=
  if isCw ∧ scaling.data.contains 'c' then
    match sptpMs with
    | some t => if t.gtZero then (data.divBy t, []) else (data, [.scaleCInvalid])
    | none => (data, [.scaleCInvalid])
  else (data, [])

/-- The `P` scaling step: on a CW experiment divide by `sqrt(power_mW)`
when the power is present and positive, else warn; requesting `P` on a
non-CW experiment only warns. -/
def stepP (scaling : String) (isCw : Bool) (mwMw : Option PyF) (data : PyMatrix)
    (sqrtFn : PyF → PyF) : PyMatrix × List Warn :=
  if isCw ∧ scaling.data.contains 'P' then
    match mwMw with
    | some p => if p.gtZero then (data.divBy (sqrtFn p), []) else (data, [.scalePInvalid])
    | none => (data, [.scalePInvalid])
  else if ¬ isCw ∧ scaling.data.contains 'P' then (data, [.scalePNotCw])
  else (data, [])

/-- The `T` scaling step: multiply by the temperature when present (warning
first when it is exactly zero), else warn. -/
def stepT (scaling : String) (stmpK : Option PyF) (data : PyMatrix) :
    PyMatrix × List Warn :=
  if scaling.data.contains 'T' then
    match stmpK with
    | some t =>
        if t.eqZero then (data.mulBy t, [.scaleTZero]) else (data.mulBy t, [])
    | none => (data, [.scaleTInvalid])
  else (data, [])

/-- The scaling block of `load`: skipped entirely when the scaling string
is empty or the data has no elements; otherwise the experiment type
(EXPT, default CW, upper-cased), the SctNorm pre-averaged flag and the
numeric parameters are resolved, the derived values computed, and the
`n`, `G`, `c`, `P`, `T` steps applied in source order.
`sqrtFn` and `tenPow` stand for `np.sqrt` and `10 ** (x / 20)`. -/
def applyScaling (scaling : String) (d : Dict) (data : PyMatrix)
    (sqrtFn tenPow : PyF → PyF) : PyMatrix × List Warn :=
  if scaling = "" ∨ data.size = 0 then (data, [])
  else
    let isCw := decide (asciiUpper ((dictGet d "EXPT").getD "CW") = "CW")
    let prescaled := decide (asciiLower ((dictGet d "SctNorm").getD "false") = "true")
    let nAvgs := (dictGet d "AVGS").bind pyInt?
    let gainDb := (dictGet d "RCAG").bind pyFloat?
    let sptpS := (dictGet d "SPTP").bind pyFloat?
    let mwW := (dictGet d "MWPW").bind pyFloat?
    let stmpK := (dictGet d "STMP").bind pyFloat?
    let gain := gainDb.map (fun db => tenPow (db / PyF.fin 20))
    let sptpMs := sptpS.map (fun t => t * PyF.fin 1000)
    let mwMw := mwW.map (fun p => p * PyF.fin 1000)
    let r1 := stepN scaling nAvgs prescaled data
    let r2 := stepG scaling isCw gain r1.1
    let r3 := stepC scaling isCw sptpMs r2.1
    let r4 := stepP scaling isCw mwMw r3.1 sqrtFn
    let r5 := stepT scaling stmpK r4.1
    (r5.1, r1.2 ++ r2.2 ++ r3.2 ++ r4.2 ++ r5.2)

/-- The result of a successful `load`: `(data, abscissa, parameters)` plus
the structured warnings. -/
structure LoadResult where
  data : PyMatrix
  absc : Abscissa
  params : List (String × PVal)
  warns : List Warn
deriving DecidableEq

/-- `load`: read the descriptor, resolve complexity, dimensions, byte order
and element format (warning on an IRFMT/IIFMT mismatch), build the
abscissa, warn when more than one data value per point is declared, read
the data matrix with the first channel's complex flag, apply the scaling
block, and coerce the parameters.  `sqrtFn` and `tenPow` stand for the
irrational scalar functions `np.sqrt` and `10 ** (x / 20)`. -/
def load (fs : FS) (scaling : String) (sqrtFn tenPow : PyF → PyF) :
    Except PyErr LoadResult :=
  (readDscFile fs.dsc).bind (fun p =>
  let rc := resolveComplex p
  (resolveDims p).bind (fun dims =>
  (resolveByteOrder p).bind (fun bos =>
  (resolveFormat p).bind (fun fmt =>
  (buildAbscissa fs p dims.1 dims.2.1 dims.2.2).bind (fun aw =>
  (getMatrix fs.dta [dims.1, dims.2.1, dims.2.2] fmt bos.1 (rc.1.headD false)).bind (fun mw =>
    let sc := applyScaling scaling p mw.1 sqrtFn tenPow
    .ok ⟨sc.1, aw.1, parseFieldParams p,
         rc.2.2 ++ bos.2 ++ iifmtWarn p rc.1 ++ aw.2 ++
         (if 1 < rc.2.1 then [Warn.multiChannel] else []) ++ mw.2 ++ sc.2⟩))))))

/-- Identity placeholder for the irrational scalar functions in concrete
evaluations (the claims under test never evaluate them). -/
def pyfId : PyF → PyF := id

/-- Modelled from the spec: the squeezed shape the MatrixReader section
describes — storage order `(nz, ny, nx)` with dimensions of size 1
dropped, a fully scalar result kept as one element.  Stated from the
spec's words for comparison with what `getMatrix` computes. -/
def specSqueezedShape (nx ny nz : ℕ) : List ℤ :=
  let f := [(nz : ℤ), (ny : ℤ), (nx : ℤ)].filter (fun dv => decide (1 < dv))
  if f = [] then [1] else f

/-- Fixture for C1's counterexample: second channel complex, first real;
data file holds `2 * nx` values. -/
def fsC1cex : FS :=
  ⟨.content ["XPTS 2", "IKKF REAL,CPLX", "IRFMT F", "BSEQ BIG"],
   some [1, 2, 3, 4], none, none, none⟩

/-- Fixture for C1's concrete scenario: complex dims `[2,1,1]`, raw float32
values `[1,2,3,4]`. -/
def fsC1ok : FS :=
  ⟨.content ["XPTS 2", "IKKF CPLX", "IRFMT F", "BSEQ BIG"],
   some [1, 2, 3, 4], none, none, none⟩

/-- Fixture for C2's concrete scenario: the spec's descriptor
`{XPTS:4, YPTS:1, ZPTS:1, IKKF:REAL, IRFMT:F, BSEQ:LIT, XMIN:0, XWID:30}`
with a data file containing `[1,2,3,4]`. -/
def fsC2 : FS :=
  ⟨.content ["XPTS 4", "YPTS 1", "ZPTS 1", "IKKF REAL", "IRFMT F",
             "BSEQ LIT", "XMIN 0", "XWID 30"],
   some [1, 2, 3, 4], none, none, none⟩

/-- Fixture for C3's counterexample: `XPTS -1` with an existing empty data
file. -/
def fsC3 : FS :=
  ⟨.content ["XPTS -1", "IKKF REAL", "IRFMT F", "BSEQ BIG"],
   some [], none, none, none⟩

/-- Fixture for C7: descriptor without a BSEQ key. -/
def fsC7 : FS :=
  ⟨.content ["XPTS 1", "IKKF REAL", "IRFMT F"],
   some [5], none, none, none⟩

/-- Fixture for C8's counterexample: `YPTS 0` makes the loaded data empty,
with the pre-averaged flag set and a valid AVGS. -/
def fsC8 : FS :=
  ⟨.content ["XPTS 2", "YPTS 0", "IKKF REAL", "IRFMT F", "BSEQ BIG",
             "XMIN 0", "XWID 10", "SctNorm true", "AVGS 5"],
   some [], none, none, none⟩

/-- Fixture for C9's counterexample: `YPTS 0` makes the loaded data empty,
with a non-CW experiment type and a present positive power. -/
def fsC9 : FS :=
  ⟨.content ["XPTS 2", "YPTS 0", "IKKF REAL", "IRFMT F", "BSEQ BIG",
             "XMIN 0", "XWID 10", "EXPT PULSE", "MWPW 0.002"],
   some [], none, none, none⟩

/-- Fixture for C10: an axis of size 2 whose `XTYP` is none of the three
recognized kinds. -/
def fsC10 : FS :=
  ⟨.content ["XPTS 2", "XTYP FOO", "IKKF REAL", "IRFMT F", "BSEQ BIG"],
   some [1, 2], none, none, none⟩

/-! Helper lemmas. -/

theorem exceptBindOk {ε α β : Type} (a : α) (f : α → Except ε β) :
    (Except.ok a : Except ε α).bind f = f a := rfl

theorem exceptBindError {ε α β : Type} (e : ε) (f : α → Except ε β) :
    (Except.error e : Except ε α).bind f = .error e := rfl

theorem dictGet_dictSet_self (d : Dict) (k v : String) :
    dictGet (dictSet d k v) k = some v := by
  induction d with
  | nil => simp [dictSet, dictGet]
  | cons kv rest ih =>
      by_cases h : kv.1 = k
      · simp [dictSet, dictGet, h]
      · simp [dictSet, dictGet, h, ih]

theorem dictGet_dictSet_ne (d : Dict) (k1 k2 v : String) (h : k1 ≠ k2) :
    dictGet (dictSet d k1 v) k2 = dictGet d k2 := by
  induction d with
  | nil => simp [dictSet, dictGet, h]
  | cons kv rest ih =>
      by_cases h1 : kv.1 = k1
      · simp [dictSet, dictGet, h1, h]
      · simp only [dictSet, dictGet, h1, if_false]
        by_cases h2 : kv.1 = k2 <;> simp [dictGet, h2, ih]

theorem PyF.add_fin (a b : ℚ) : PyF.fin a + PyF.fin b = PyF.fin (a + b) := rfl

theorem PyF.sub_fin (a b : ℚ) : PyF.fin a - PyF.fin b = PyF.fin (a + -b) := rfl

theorem PyF.mul_fin (a b : ℚ) : PyF.fin a * PyF.fin b = PyF.fin (a * b) := rfl

theorem PyF.div_fin (a b : ℚ) (hb : b ≠ 0) :
    PyF.fin a / PyF.fin b = PyF.fin (a / b) := by
  show PyF.div (PyF.fin a) (PyF.fin b) = PyF.fin (a / b)
  simp [PyF.div, hb]

theorem deinterleave_length : ∀ l : List ℚ, (deinterleave l).length = l.length / 2
  | [] => rfl
  | [_] => by simp [deinterleave]
  | r :: i :: rest => by
      simp only [deinterleave, List.length_cons, deinterleave_length rest]
      omega

theorem deinterleave_getD :
    ∀ (l : List ℚ) (k : ℕ), 2 * k + 1 < l.length →
      (deinterleave l).getD k (PyF.nan, PyF.nan) =
        (PyF.fin (l.getD (2 * k) 0), PyF.fin (l.getD (2 * k + 1) 0))
  | [], k, h => by simp at h
  | [_], k, h => by simp at h
  | r :: i :: rest, 0, _ => rfl
  | r :: i :: rest, k + 1, h => by
      have h2 : 2 * k + 1 < rest.length := by
        simp only [List.length_cons] at h
        omega
      have ih := deinterleave_getD rest k h2
      have e1 : 2 * (k + 1) = 2 * k + 1 + 1 := by omega
      simp only [deinterleave, e1, List.getD_cons_succ]
      exact ih

theorem getD_range_map {α : Type} (f : ℕ → α) (n k : ℕ) (d : α) (h : k < n) :
    (((List.range n).map f).getD k d) = f k := by
  rw [List.getD_eq_getElem?_getD, List.getElem?_map, List.getElem?_range h]
  rfl

theorem length_range_map {α : Type} (f : ℕ → α) (n : ℕ) :
    ((List.range n).map f).length = n := by simp

theorem prod_filter_one_lt (l : List ℤ) (h : ∀ x ∈ l, 1 ≤ x) :
    (l.filter (fun dv => decide (1 < dv))).prod = l.prod := by
  induction l with
  | nil => simp
  | cons a t ih =>
      have ha := h a (by simp)
      have ht : ∀ x ∈ t, 1 ≤ x := fun x hx => h x (by simp [hx])
      by_cases h1 : 1 < a
      · simp [List.filter_cons, h1, ih ht]
      · have ha1 : a = 1 := le_antisymm (not_lt.mp h1) ha
        simp [List.filter_cons, h1, ha1, ih ht]

theorem filter_one_lt_all_nonneg (l : List ℤ) :
    (l.filter (fun dv => decide (1 < dv))).all (fun dv => decide (0 ≤ dv)) = true := by
  rw [List.all_eq_true]
  intro x hx
  rw [List.mem_filter] at hx
  have h1 : (1 : ℤ) < x := by simpa using hx.2
  simp only [decide_eq_true_eq]
  omega

theorem filter_one_lt_ne_one (l : List ℤ) :
    (l.filter (fun dv => decide (1 < dv))).filter (fun dv => decide (dv ≠ 1)) =
      l.filter (fun dv => decide (1 < dv)) := by
  rw [List.filter_eq_self]
  intro x hx
  rw [List.mem_filter] at hx
  have h1 : (1 : ℤ) < x := by simpa using hx.2
  simp only [decide_eq_true_eq]
  omega

theorem npReshape_exact (shape : List ℤ) (size : ℕ)
    (hnn : shape.all (fun dv => decide (0 ≤ dv)) = true)
    (hp : shape.prod = (size : ℤ)) : npReshape shape size = some shape := by
  simp [npReshape, hnn, hp]

theorem getMatrix_eval_real (raw : List ℚ) (nx ny nz : ℕ) (fmt : String) (bo : ByteOrder)
    (h1 : 1 ≤ nx) (h2 : 1 ≤ ny) (h3 : 1 ≤ nz)
    (hlen : raw.length = nx * ny * nz) :
    getMatrix (some raw) [(nx : ℤ), (ny : ℤ), (nz : ℤ)] fmt bo false =
      .ok (⟨.real (raw.map PyF.fin), specSqueezedShape nx ny nz⟩, []) := by
  have hpos : 0 < nx * ny * nz := Nat.mul_pos (Nat.mul_pos h1 h2) h3
  have hprod : ([(nx : ℤ), (ny : ℤ), (nz : ℤ)] : List ℤ).prod = ((nx * ny * nz : ℕ) : ℤ) := by
    simp [List.prod_cons]
    ring
  have hne : ((nx * ny * nz : ℕ) : ℤ) ≠ 0 := by
    simp only [ne_eq, Nat.cast_eq_zero]
    omega
  have hfrom : npFromFile raw ((nx * ny * nz : ℕ) : ℤ) = raw := by
    unfold npFromFile
    rw [if_neg (by exact not_lt.mpr (Int.natCast_nonneg _)), Int.toNat_natCast, ← hlen,
      List.take_length]
  simp only [getMatrix, hprod, Bool.false_eq_true, if_false, hfrom, hlen, lt_self_iff_false,
    exceptBindOk]
  simp only [MatVals.size, List.length_map, hlen]
  simp only [List.reverse_cons, List.reverse_nil, List.nil_append, List.cons_append,
    List.singleton_append]
  rw [if_neg hne]
  by_cases hso : List.filter (fun dv => decide (1 < dv)) [(nz : ℤ), (ny : ℤ), (nx : ℤ)] = []
  · have hall : ∀ x ∈ [(nz : ℤ), (ny : ℤ), (nx : ℤ)], ¬ (1 < x) := by
      intro x hx
      have := List.filter_eq_nil_iff.mp hso x hx
      simpa using this
    have hx1 : nx = 1 := by
      have := hall (nx : ℤ) (by simp)
      omega
    have hy1 : ny = 1 := by
      have := hall (ny : ℤ) (by simp)
      omega
    have hz1 : nz = 1 := by
      have := hall (nz : ℤ) (by simp)
      omega
    subst hx1 hy1 hz1
    simp only [hso, if_true, specSqueezedShape]
    norm_num [npReshape]
  · rw [if_neg hso]
    have hmem : ∀ x ∈ [(nz : ℤ), (ny : ℤ), (nx : ℤ)], 1 ≤ x := by
      intro x hx
      simp only [List.mem_cons, List.not_mem_nil, or_false] at hx
      rcases hx with h | h | h <;> subst h <;> omega
    have hp : (List.filter (fun dv => decide (1 < dv)) [(nz : ℤ), (ny : ℤ), (nx : ℤ)]).prod =
        ((nx * ny * nz : ℕ) : ℤ) := by
      rw [prod_filter_one_lt _ hmem]
      simp [List.prod_cons]
      ring
    rw [npReshape_exact _ _ (filter_one_lt_all_nonneg _) hp]
    simp only [filter_one_lt_ne_one, hso, if_false, specSqueezedShape]

theorem getMatrix_eval_cplx (raw : List ℚ) (nx ny nz : ℕ) (fmt : String) (bo : ByteOrder)
    (h1 : 1 ≤ nx) (h2 : 1 ≤ ny) (h3 : 1 ≤ nz)
    (hlen : raw.length = nx * ny * nz * 2) :
    getMatrix (some raw) [(nx : ℤ), (ny : ℤ), (nz : ℤ)] fmt bo true =
      .ok (⟨.cplx (deinterleave raw), specSqueezedShape nx ny nz⟩, []) := by
  have hpos : 0 < nx * ny * nz := Nat.mul_pos (Nat.mul_pos h1 h2) h3
  have hprod : ([(nx : ℤ), (ny : ℤ), (nz : ℤ)] : List ℤ).prod = ((nx * ny * nz : ℕ) : ℤ) := by
    simp [List.prod_cons]
    ring
  have hne : ((nx * ny * nz : ℕ) : ℤ) ≠ 0 := by
    simp only [ne_eq, Nat.cast_eq_zero]
    omega
  have hcast : ((nx * ny * nz : ℕ) : ℤ) * 2 = ((nx * ny * nz * 2 : ℕ) : ℤ) := by
    push_cast
    ring
  have hfrom : npFromFile raw (((nx * ny * nz * 2 : ℕ) : ℤ)) = raw := by
    unfold npFromFile
    rw [if_neg (by exact not_lt.mpr (Int.natCast_nonneg _)), Int.toNat_natCast, ← hlen,
      List.take_length]
  have hsize : (deinterleave raw).length = nx * ny * nz := by
    rw [deinterleave_length, hlen]
    omega
  simp only [getMatrix, hprod, if_true, hcast, hfrom, hlen, lt_self_iff_false, if_false,
    exceptBindOk]
  rw [if_neg (by omega : ¬ nx * ny * nz * 2 % 2 ≠ 0)]
  simp only [exceptBindOk, MatVals.size, hsize]
  simp only [List.reverse_cons, List.reverse_nil, List.nil_append, List.cons_append,
    List.singleton_append]
  rw [if_neg hne]
  by_cases hso : List.filter (fun dv => decide (1 < dv)) [(nz : ℤ), (ny : ℤ), (nx : ℤ)] = []
  · have hall : ∀ x ∈ [(nz : ℤ), (ny : ℤ), (nx : ℤ)], ¬ (1 < x) := by
      intro x hx
      have := List.filter_eq_nil_iff.mp hso x hx
      simpa using this
    have hx1 : nx = 1 := by
      have := hall (nx : ℤ) (by simp)
      omega
    have hy1 : ny = 1 := by
      have := hall (ny : ℤ) (by simp)
      omega
    have hz1 : nz = 1 := by
      have := hall (nz : ℤ) (by simp)
      omega
    subst hx1 hy1 hz1
    simp only [hso, if_true, specSqueezedShape]
    norm_num [npReshape]
  · rw [if_neg hso]
    have hmem : ∀ x ∈ [(nz : ℤ), (ny : ℤ), (nx : ℤ)], 1 ≤ x := by
      intro x hx
      simp only [List.mem_cons, List.not_mem_nil, or_false] at hx
      rcases hx with h | h | h <;> subst h <;> omega
    have hp : (List.filter (fun dv => decide (1 < dv)) [(nz : ℤ), (ny : ℤ), (nx : ℤ)]).prod =
        ((nx * ny * nz : ℕ) : ℤ) := by
      rw [prod_filter_one_lt _ hmem]
      simp [List.prod_cons]
      ring
    rw [npReshape_exact _ _ (filter_one_lt_all_nonneg _) hp]
    simp only [filter_one_lt_ne_one, hso, if_false, specSqueezedShape]

theorem linspacePyF_length (a b : PyF) (n : ℕ) : (linspacePyF a b n).length = n := by
  simp [linspacePyF]

theorem linearAxis_linspace (d : Dict) (ax : String) (N : ℕ) (m w : ℚ) (ms ws : String)
    (hN : 1 < N)
    (hm : dictGet d (ax ++ "MIN") = some ms) (hmp : pyFloat? ms = some (PyF.fin m))
    (hw : dictGet d (ax ++ "WID") = some ws) (hwp : pyFloat? ws = some (PyF.fin w))
    (hw0 : w ≠ 0) :
    linearAxis d ax (N : ℤ) = (linspacePyF (PyF.fin m) (PyF.fin (m + w)) N, []) := by
  simp only [linearAxis, hm, hmp, hw, hwp]
  rw [if_pos (by exact_mod_cast hN)]
  rw [if_neg (by simp [PyF.eqZero, hw0])]
  rw [PyF.add_fin, Int.toNat_natCast]

theorem arangePyF_length (n : ℕ) : (arangePyF n).length = n := by
  unfold arangePyF
  exact length_range_map _ _

theorem arangePyF_getD (n k : ℕ) (h : k < n) :
    (arangePyF n).getD k PyF.nan = PyF.fin (k : ℚ) := by
  unfold arangePyF
  exact getD_range_map _ _ _ _ h

theorem linspace_fin_getD (m w : ℚ) (N : ℕ) (hN : 1 < N) (k : ℕ) (hk : k < N) :
    (linspacePyF (PyF.fin m) (PyF.fin (m + w)) N).getD k PyF.nan =
      PyF.fin (m + k * (w / ((N : ℚ) - 1))) := by
  unfold linspacePyF
  rw [getD_range_map _ _ _ _ hk]
  have hd : ((N - 1 : ℕ) : ℚ) ≠ 0 := by
    have hne : (N - 1 : ℕ) ≠ 0 := by omega
    exact_mod_cast hne
  have hcast : ((N - 1 : ℕ) : ℚ) = (N : ℚ) - 1 := by
    rw [Nat.cast_sub (by omega : 1 ≤ N)]
    norm_num
  rw [PyF.sub_fin, PyF.div_fin _ _ hd]
  by_cases hk1 : k = N - 1
  · rw [if_pos hk1]
    subst hk1
    congr 1
    rw [hcast]
    have hN1 : (N : ℚ) - 1 ≠ 0 := by rw [← hcast]; exact hd
    field_simp
  · rw [if_neg hk1, PyF.mul_fin, PyF.add_fin]
    congr 1
    rw [hcast]
    ring

theorem resolveDims_px_zero (d : Dict) (hx : dimValue d "XPTS" 0 = some 0) :
    ∃ t, resolveDims d = .error (.valueError t) := by
  simp only [resolveDims, hx]
  cases hy : dimValue d "YPTS" 1 with
  | none => exact ⟨.dims, rfl⟩
  | some ny =>
      cases hz : dimValue d "ZPTS" 1 with
      | none => exact ⟨.dims, rfl⟩
      | some nz => exact ⟨.xptsZero, rfl⟩

theorem resolveDims_ok_ne_zero (d : Dict) (x : ℤ × ℤ × ℤ) (h : resolveDims d = .ok x) :
    x.1 ≠ 0 := by
  simp only [resolveDims] at h
  split at h
  · split at h
    · simp at h
    · rename_i h0
      injection h with h1
      subst h1
      simpa using h0
  · simp at h

theorem load_error_of_resolveDims (fs : FS) (sc : String) (f g : PyF → PyF) (p : Dict)
    (hp : readDscFile fs.dsc = .ok p) (t : VTag)
    (ht : resolveDims p = .error (.valueError t)) :
    load fs sc f g = .error (.valueError t) := by
  simp only [load, hp, exceptBindOk, ht, exceptBindError]

theorem aliasStepY_error (d : Dict) (e : PyErr) (h : aliasStepY d = .error e) :
    e = .keyError "YUNI" := by
  unfold aliasStepY at h
  split at h
  · split at h
    · simp at h
    · split at h
      · simp at h
      · injection h with h1
        exact h1.symm
  · simp at h

theorem aliasStepY_preserves (d d2 : Dict) (k : String)
    (h : aliasStepY d = .ok d2) (hk1 : k ≠ "YAXIS_NAME") (hk2 : k ≠ "YAXIS_UNIT") :
    dictGet d2 k = dictGet d k := by
  unfold aliasStepY at h
  split at h
  · split at h
    · injection h with h1
      subst h1
      rfl
    · split at h
      · injection h with h1
        subst h1
        rw [dictGet_dictSet_ne _ _ _ _ (Ne.symm hk2), dictGet_dictSet_ne _ _ _ _ (Ne.symm hk1)]
      · simp at h
  · injection h with h1
    subst h1
    rfl

theorem aliasStep_error (p : Dict) (e : PyErr) (h : aliasStep p = .error e) :
    ∃ k, e = .keyError k := by
  unfold aliasStep at h
  split at h
  · split at h
    · exact ⟨"YUNI", aliasStepY_error _ _ h⟩
    · split at h
      · exact ⟨"YUNI", aliasStepY_error _ _ h⟩
      · injection h with h1
        exact ⟨"XUNI", h1.symm⟩
  · exact ⟨"YUNI", aliasStepY_error _ _ h⟩

theorem aliasStep_ok_x (p d : Dict) (v u : String)
    (h : aliasStep p = .ok d)
    (hv : dictGet p "XNAM" = some v) (hne : v ≠ "") (hu : dictGet p "XUNI" = some u) :
    dictGet d "XAXIS_NAME" = some v ∧ dictGet d "XAXIS_UNIT" = some u := by
  unfold aliasStep at h
  simp only [hv] at h
  rw [if_neg hne] at h
  simp only [hu] at h
  constructor
  · rw [aliasStepY_preserves _ _ _ h (by decide) (by decide)]
    rw [dictGet_dictSet_ne _ _ _ _ (by decide)]
    exact dictGet_dictSet_self _ _ _
  · rw [aliasStepY_preserves _ _ _ h (by decide) (by decide)]
    exact dictGet_dictSet_self _ _ _

theorem getD_map_lt {α β : Type} (f : α → β) (l : List α) (k : ℕ) (d1 : α) (d2 : β)
    (h : k < l.length) : (l.map f).getD k d2 = f (l.getD k d1) := by
  rw [List.getD_eq_getElem?_getD, List.getElem?_map, List.getElem?_eq_getElem h,
    List.getD_eq_getElem?_getD, List.getElem?_eq_getElem h]
  rfl

theorem divBy_entryRe (m : PyMatrix) (r : PyF) (k : ℕ) (hk : k < m.size) :
    (m.divBy r).entryRe k = (m.entryRe k) / r := by
  cases hm : m.vals with
  | real xs =>
      have hl : k < xs.length := by
        have hms : m.size = xs.length := by simp [PyMatrix.size, MatVals.size, hm]
        omega
      simp only [PyMatrix.divBy, PyMatrix.entryRe, MatVals.map1, hm]
      exact getD_map_lt _ _ _ PyF.nan _ hl
  | cplx xs =>
      have hl : k < xs.length := by
        have hms : m.size = xs.length := by simp [PyMatrix.size, MatVals.size, hm]
        omega
      simp only [PyMatrix.divBy, PyMatrix.entryRe, MatVals.map1, hm]
      rw [getD_map_lt _ _ _ (PyF.nan, PyF.nan) _ hl]

theorem stepN_skip (s : String) (nAvgs : Option ℤ) (pre : Bool) (data : PyMatrix)
    (h : s.data.contains 'n' = false) : stepN s nAvgs pre data = (data, []) := by
  unfold stepN
  rw [if_neg (by rw [h]; exact Bool.false_ne_true)]

theorem stepG_skip (s : String) (cw : Bool) (gain : Option PyF) (data : PyMatrix)
    (h : s.data.contains 'G' = false) : stepG s cw gain data = (data, []) := by
  unfold stepG
  rw [if_neg]
  rintro ⟨-, h2⟩
  rw [h] at h2
  exact Bool.false_ne_true h2

theorem stepC_skip (s : String) (cw : Bool) (t : Option PyF) (data : PyMatrix)
    (h : s.data.contains 'c' = false) : stepC s cw t data = (data, []) := by
  unfold stepC
  rw [if_neg]
  rintro ⟨-, h2⟩
  rw [h] at h2
  exact Bool.false_ne_true h2

theorem stepP_skip (s : String) (cw : Bool) (p : Option PyF) (data : PyMatrix)
    (f : PyF → PyF) (h : s.data.contains 'P' = false) :
    stepP s cw p data f = (data, []) := by
  unfold stepP
  rw [if_neg, if_neg]
  · rintro ⟨-, h2⟩
    rw [h] at h2
    exact Bool.false_ne_true h2
  · rintro ⟨-, h2⟩
    rw [h] at h2
    exact Bool.false_ne_true h2

theorem stepT_skip (s : String) (t : Option PyF) (data : PyMatrix)
    (h : s.data.contains 'T' = false) : stepT s t data = (data, []) := by
  unfold stepT
  rw [if_neg (by rw [h]; exact Bool.false_ne_true)]

set_option maxRecDepth 8000

/-! Claim theorems. -/

/-- C2: for every axis of dimension size `N > 1` whose type resolves to
linear (the `IDX` block of `load`, embodied by `linearAxis`), with a
parsable finite minimum `m` and a nonzero parsable finite width `w`, the
built axis is exactly the `N` evenly spaced values from `m` to `m + w`
inclusive of both endpoints (entry `k` is `m + k * w / (N - 1)`, the first
entry is `m`, the last is `m + w`) with no warning; and the spec's
concrete scenario — descriptor `{XPTS 4, YPTS 1, ZPTS 1, IKKF REAL,
IRFMT F, BSEQ LIT, XMIN 0, XWID 30}` with a little-endian float32 data
file containing `[1,2,3,4]` — yields `abscissa == [0,10,20,30]` and
`data == [1,2,3,4]`. -/
theorem C2_linear_axis :
    (∀ (d : Dict) (ax : String) (N : ℕ) (m w : ℚ) (ms ws : String),
        1 < N →
        dictGet d (ax ++ "MIN") = some ms → pyFloat? ms = some (PyF.fin m) →
        dictGet d (ax ++ "WID") = some ws → pyFloat? ws = some (PyF.fin w) →
        w ≠ 0 →
        (linearAxis d ax (N : ℤ)).2 = [] ∧
        (linearAxis d ax (N : ℤ)).1.length = N ∧
        (∀ k, k < N →
          (linearAxis d ax (N : ℤ)).1.getD k PyF.nan =
            PyF.fin (m + k * (w / ((N : ℚ) - 1)))) ∧
        (linearAxis d ax (N : ℤ)).1.getD 0 PyF.nan = PyF.fin m ∧
        (linearAxis d ax (N : ℤ)).1.getD (N - 1) PyF.nan = PyF.fin (m + w)) ∧
    (load fsC2 "" pyfId pyfId).toOption.map (fun r => (r.data, r.absc)) =
      some (⟨.real [.fin 1, .fin 2, .fin 3, .fin 4], [4]⟩,
            .one [.fin 0, .fin 10, .fin 20, .fin 30]) := by
  constructor
  · intro d ax N m w ms ws hN hm hmp hw hwp hw0
    rw [linearAxis_linspace d ax N m w ms ws hN hm hmp hw hwp hw0]
    refine ⟨rfl, linspacePyF_length _ _ _,
      fun k hk => linspace_fin_getD m w N hN k hk, ?_, ?_⟩
    · rw [linspace_fin_getD m w N hN 0 (by omega)]
      norm_num
    · rw [linspace_fin_getD m w N hN (N - 1) (by omega)]
      congr 1
      have hc : ((N - 1 : ℕ) : ℚ) = (N : ℚ) - 1 := by
        rw [Nat.cast_sub (by omega : 1 ≤ N)]
        norm_num
      rw [hc]
      have hne : (N : ℚ) - 1 ≠ 0 := by
        have hlt : (1 : ℚ) < (N : ℚ) := by exact_mod_cast hN
        intro hcontra
        nlinarith
      field_simp
  · with_unfolding_all decide

/-- Witness for C2 at a concrete input: `XMIN 0`, `XWID 30`, four points,
third axis entry is 20. -/
theorem C2_linear_axis_witness :
    (linearAxis [("XMIN", "0"), ("XWID", "30")] "X" ((4 : ℕ) : ℤ)).1.getD 2 PyF.nan =
      PyF.fin 20 := by
  have h := (C2_linear_axis.1 [("XMIN", "0"), ("XWID", "30")] "X" 4 0 30 "0" "30"
      (by omega) (by with_unfolding_all decide) (by with_unfolding_all decide)
      (by with_unfolding_all decide) (by with_unfolding_all decide)
      (by norm_num)).2.2.1 2 (by omega)
  rw [h]
  norm_num

/-- C6: for a linear axis of dimension size `N > 1`, a missing or
unparsable `{ax}MIN` or `{ax}WID` makes the axis fall back to the plain
index sequence `[0, 1, ..., N-1]` with a warning, as does a width that
parses to exactly zero; the index sequence really has `N` entries with
entry `k` equal to `k`; and the axis builder returns without a fatal error
for every axis type other than `NTUP`. -/
theorem C6_axis_fallback :
    ∀ (d : Dict) (ax : String) (N : ℕ), 1 < N →
      ((dictGet d (ax ++ "MIN") = none ∨
        (∃ s, dictGet d (ax ++ "MIN") = some s ∧ pyFloat? s = none) ∨
        dictGet d (ax ++ "WID") = none ∨
        (∃ s, dictGet d (ax ++ "WID") = some s ∧ pyFloat? s = none)) →
        linearAxis d ax (N : ℤ) = (arangePyF N, [Warn.minWid ax])) ∧
      (∀ (m : PyF) (ms ws : String),
        dictGet d (ax ++ "MIN") = some ms → pyFloat? ms = some m →
        dictGet d (ax ++ "WID") = some ws → pyFloat? ws = some (PyF.fin 0) →
        linearAxis d ax (N : ℤ) = (arangePyF N, [Warn.zeroWid ax])) ∧
      (arangePyF N).length = N ∧
      (∀ k, k < N → (arangePyF N).getD k PyF.nan = PyF.fin (k : ℚ)) ∧
      (∀ comp, ((dictGet d (ax ++ "TYP")).getD "IDX") ≠ "NTUP" →
        (buildAxis comp d ax (N : ℤ)).isOk = true) := by
  intro d ax N hN
  have hNZ : (1 : ℤ) < (N : ℤ) := by exact_mod_cast hN
  refine ⟨?_, ?_, ?_, ?_, ?_⟩
  · intro hc
    rcases hc with h | ⟨s, hs, hsp⟩ | h | ⟨s, hs, hsp⟩
    · simp [linearAxis, h, Int.toNat_natCast]
    · simp [linearAxis, hs, hsp, Int.toNat_natCast]
    · cases hm : dictGet d (ax ++ "MIN") with
      | none => simp [linearAxis, hm, Int.toNat_natCast]
      | some ms =>
          cases hmp : pyFloat? ms with
          | none => simp [linearAxis, hm, hmp, Int.toNat_natCast]
          | some m => simp [linearAxis, hm, hmp, h, Int.toNat_natCast]
    · cases hm : dictGet d (ax ++ "MIN") with
      | none => simp [linearAxis, hm, Int.toNat_natCast]
      | some ms =>
          cases hmp : pyFloat? ms with
          | none => simp [linearAxis, hm, hmp, Int.toNat_natCast]
          | some m => simp [linearAxis, hm, hmp, hs, hsp, Int.toNat_natCast]
  · intro m ms ws hm hmp hw hwp
    simp [linearAxis, hm, hmp, hw, hwp, hNZ, PyF.eqZero, Int.toNat_natCast]
  · exact arangePyF_length N
  · intro k hk
    exact arangePyF_getD N k hk
  · intro comp ht
    simp only [buildAxis]
    rw [if_neg (by omega)]
    by_cases h1 : ((dictGet d (ax ++ "TYP")).getD "IDX") = "IGD"
    · rw [if_pos h1]
      by_cases h2 : ¬ (asciiUpper ((dictGet d (ax ++ "FMT")).getD "D") = "D" ∨
          asciiUpper ((dictGet d (ax ++ "FMT")).getD "D") = "F" ∨
          asciiUpper ((dictGet d (ax ++ "FMT")).getD "D") = "I" ∨
          asciiUpper ((dictGet d (ax ++ "FMT")).getD "D") = "S")
      · rw [if_pos h2]
        rfl
      · rw [if_neg h2]
        cases comp with
        | none => rfl
        | some content =>
            by_cases h3 : (content.take ((N : ℤ)).toNat).length = ((N : ℤ)).toNat
            · simp only [h3, eq_self_iff_true, if_true]
              rfl
            · simp only [h3, if_false]
              rfl
    · rw [if_neg h1]
      by_cases h2 : ((dictGet d (ax ++ "TYP")).getD "IDX") = "IDX"
      · rw [if_pos h2]
        rfl
      · rw [if_neg h2, if_neg ht]
        rfl

/-- Witness for C6 at a concrete input: `XMIN` missing, so the axis of
size 3 is the index sequence with a warning. -/
theorem C6_axis_fallback_witness :
    linearAxis [("XWID", "30")] "X" ((3 : ℕ) : ℤ) = (arangePyF 3, [Warn.minWid "X"]) :=
  (C6_axis_fallback [("XWID", "30")] "X" 3 (by omega)).1
    (Or.inl (by with_unfolding_all decide))

/-- C10: for an axis of dimension size greater than 1 whose `{ax}TYP`
value is none of the three recognized kinds (`IGD`, `IDX`, `NTUP`), the
axis builder raises no error, emits no warning and builds no axis; and
concretely, a load whose only non-trivial axis carries `XTYP FOO`
succeeds with an absent abscissa and no warnings at all. -/
theorem C10_unknown_axis_type :
    (∀ (comp : Option (List ℚ)) (d : Dict) (ax : String) (N : ℤ) (t : String),
        1 < N → dictGet d (ax ++ "TYP") = some t →
        t ≠ "IGD" → t ≠ "IDX" → t ≠ "NTUP" →
        buildAxis comp d ax N = .ok (none, [])) ∧
    (load fsC10 "" pyfId pyfId).toOption.map (fun r => (r.absc, r.warns)) =
      some (.nothing, []) := by
  constructor
  · intro comp d ax N t hN ht h1 h2 h3
    simp only [buildAxis, ht]
    rw [if_neg (by omega)]
    simp [h1, h2, h3]
  · with_unfolding_all decide

/-- Witness for C10 at a concrete input: axis type `FOO` on a size-5 axis
builds nothing. -/
theorem C10_unknown_axis_type_witness :
    buildAxis none [("XTYP", "FOO")] "X" 5 = .ok (none, []) :=
  C10_unknown_axis_type.1 none [("XTYP", "FOO")] "X" 5 "FOO" (by omega)
    (by with_unfolding_all decide) (by decide) (by decide) (by decide)

/-- C1 counterexample: with `IKKF REAL,CPLX` (second channel flagged
complex, so "any channel flagged complex" holds) and a raw file
`[1,2,3,4]` of length `2*nx*ny*nz`, the load succeeds but returns the
real, non-deinterleaved data `[1,2]`: `data[1].real` is 2, not
`raw[2] = 3`, and `data[1].imag` is 0, not `raw[3] = 4` — `load` passes
only the first channel's complex flag to the matrix reader. -/
theorem C1_counterexample :
    (readDscFile fsC1cex.dsc).toOption.map
      (fun p => ((resolveComplex p).1, (resolveComplex p).1.any id)) =
      some ([false, true], true) ∧
    fsC1cex.dta = some [1, 2, 3, 4] ∧
    (load fsC1cex "" pyfId pyfId).toOption.map
      (fun r => (r.data, r.data.entryRe 1, r.data.entryIm 1)) =
      some (⟨.real [.fin 1, .fin 2], [2]⟩, .fin 2, .fin 0) ∧
    PyF.fin 2 ≠ PyF.fin 3 ∧ PyF.fin 0 ≠ PyF.fin 4 := by
  with_unfolding_all decide

/-- C1 (amended to the first channel's flag, which is what `load` passes
to `get_matrix`): for every complex read of a raw sequence of length
`2*nx*ny*nz`, the returned values are the deinterleaved pairs —
`data[k].real == raw[2k]` and `data[k].imag == raw[2k+1]` for every
`k < nx*ny*nz`; and the spec's concrete scenario — complex dims
`[2,1,1]`, `IKKF CPLX`, raw float32 values `[1,2,3,4]` — yields
`data == [1+2i, 3+4i]`. -/
theorem C1_deinterleave :
    (∀ (raw : List ℚ) (nx ny nz : ℕ) (fmt : String) (bo : ByteOrder),
        1 ≤ nx → 1 ≤ ny → 1 ≤ nz → raw.length = nx * ny * nz * 2 →
        getMatrix (some raw) [(nx : ℤ), (ny : ℤ), (nz : ℤ)] fmt bo true =
          .ok (⟨.cplx (deinterleave raw), specSqueezedShape nx ny nz⟩, []) ∧
        (∀ k, k < nx * ny * nz →
          (deinterleave raw).getD k (PyF.nan, PyF.nan) =
            (PyF.fin (raw.getD (2 * k) 0), PyF.fin (raw.getD (2 * k + 1) 0)))) ∧
    (load fsC1ok "" pyfId pyfId).toOption.map (fun r => r.data) =
      some ⟨.cplx [(.fin 1, .fin 2), (.fin 3, .fin 4)], [2]⟩ := by
  constructor
  · intro raw nx ny nz fmt bo h1 h2 h3 hlen
    refine ⟨getMatrix_eval_cplx raw nx ny nz fmt bo h1 h2 h3 hlen, ?_⟩
    intro k hk
    exact deinterleave_getD raw k (by omega)
  · with_unfolding_all decide

/-- Witness for C1's amended theorem at a concrete input. -/
theorem C1_deinterleave_witness :
    getMatrix (some [1, 2, 3, 4]) [((2 : ℕ) : ℤ), ((1 : ℕ) : ℤ), ((1 : ℕ) : ℤ)]
      "f4" .be true =
      .ok (⟨.cplx (deinterleave [1, 2, 3, 4]), specSqueezedShape 2 1 1⟩, []) :=
  (C1_deinterleave.1 [1, 2, 3, 4] 2 1 1 "f4" .be (by omega) (by omega) (by omega)
    (by with_unfolding_all decide)).1

/-- C5: for every successful real read with positive dims, the data matrix
is the raw value sequence (as the flat values, unchanged by the C-order
reshape) with the squeezed storage-order shape `(nz, ny, nx)` — size-1
dimensions dropped and a fully scalar result kept as a one-element shape
`[1]`, per `specSqueezedShape` — with the element count equal to
`nx*ny*nz`; in particular for real dims `[N,1,1]` the returned data length
equals `N`. -/
theorem C5_reshape_squeeze :
    (∀ (raw : List ℚ) (nx ny nz : ℕ) (fmt : String) (bo : ByteOrder),
        1 ≤ nx → 1 ≤ ny → 1 ≤ nz → raw.length = nx * ny * nz →
        getMatrix (some raw) [(nx : ℤ), (ny : ℤ), (nz : ℤ)] fmt bo false =
          .ok (⟨.real (raw.map PyF.fin), specSqueezedShape nx ny nz⟩, []) ∧
        (getMatrix (some raw) [(nx : ℤ), (ny : ℤ), (nz : ℤ)] fmt bo false).toOption.map
          (fun mw => mw.1.size) = some (nx * ny * nz)) ∧
    (∀ (raw : List ℚ) (N : ℕ) (fmt : String) (bo : ByteOrder),
        1 ≤ N → raw.length = N →
        (getMatrix (some raw) [(N : ℤ), ((1 : ℕ) : ℤ), ((1 : ℕ) : ℤ)] fmt bo false).toOption.map
          (fun mw => mw.1.size) = some N) := by
  constructor
  · intro raw nx ny nz fmt bo h1 h2 h3 hlen
    have he := getMatrix_eval_real raw nx ny nz fmt bo h1 h2 h3 hlen
    refine ⟨he, ?_⟩
    rw [he]
    show some (PyMatrix.size ⟨.real (raw.map PyF.fin), specSqueezedShape nx ny nz⟩) =
      some (nx * ny * nz)
    simp [PyMatrix.size, MatVals.size, hlen]
  · intro raw N fmt bo h1 hlen
    have he := getMatrix_eval_real raw N 1 1 fmt bo h1 (by omega) (by omega)
      (by simp [hlen])
    rw [he]
    show some (PyMatrix.size ⟨.real (raw.map PyF.fin), specSqueezedShape N 1 1⟩) = some N
    simp [PyMatrix.size, MatVals.size, hlen]

/-- Witness for C5 at a concrete input: dims `[3,2,1]` with six values
give the flat values back under shape `[2,3]`. -/
theorem C5_reshape_squeeze_witness :
    getMatrix (some [1, 2, 3, 4, 5, 6]) [((3 : ℕ) : ℤ), ((2 : ℕ) : ℤ), ((1 : ℕ) : ℤ)]
      "f4" .be false =
      .ok (⟨.real ([1, 2, 3, 4, 5, 6].map PyF.fin), specSqueezedShape 3 2 1⟩, []) :=
  (C5_reshape_squeeze.1 [1, 2, 3, 4, 5, 6] 3 2 1 "f4" .be (by omega) (by omega) (by omega)
    (by with_unfolding_all decide)).1

/-- C3 (amended: on success the resolved first dimension is nonzero, not
necessarily positive): a missing XPTS key or an XPTS parsing to zero makes
the dimension resolver — and hence `load` — raise a `ValueError`
(FormatError family), and every successful dimension resolution has
`nx ≠ 0`. -/
theorem C3_xpts :
    (∀ (d : Dict), dictGet d "XPTS" = none →
        ∃ t, resolveDims d = .error (.valueError t)) ∧
    (∀ (d : Dict) (s : String), dictGet d "XPTS" = some s → pyInt? s = some 0 →
        ∃ t, resolveDims d = .error (.valueError t)) ∧
    (∀ (d : Dict) (x : ℤ × ℤ × ℤ), resolveDims d = .ok x → x.1 ≠ 0) ∧
    (∀ (fs : FS) (sc : String) (f g : PyF → PyF) (p : Dict),
        readDscFile fs.dsc = .ok p →
        (dictGet p "XPTS" = none ∨ ∃ s, dictGet p "XPTS" = some s ∧ pyInt? s = some 0) →
        ∃ e, load fs sc f g = .error e) := by
  refine ⟨?_, ?_, resolveDims_ok_ne_zero, ?_⟩
  · intro d h
    exact resolveDims_px_zero d (by simp [dimValue, h])
  · intro d s hs hp
    exact resolveDims_px_zero d (by simp [dimValue, hs, hp])
  · intro fs sc f g p hp hc
    have hz : dimValue p "XPTS" 0 = some 0 := by
      rcases hc with h | ⟨s, hs, hps⟩
      · simp [dimValue, h]
      · simp [dimValue, hs, hps]
    obtain ⟨t, ht⟩ := resolveDims_px_zero p hz
    exact ⟨.valueError t, load_error_of_resolveDims fs sc f g p hp t ht⟩

/-- C3 counterexample: the descriptor `XPTS -1` (with an existing empty
data file) resolves to dims `(-1, 1, 1)` — only `nx == 0` is rejected —
and the whole load succeeds, so "whenever load succeeds,
`nx = dims[0] > 0`" is false: here `dims[0] = -1 < 0`. -/
theorem C3_counterexample :
    ((readDscFile fsC3.dsc).toOption.bind (fun p => (resolveDims p).toOption)) =
      some (-1, 1, 1) ∧
    (load fsC3 "" pyfId pyfId).toOption.isSome = true ∧
    ((-1 : ℤ) < 0) := by
  with_unfolding_all decide

/-- Witness for C3 at a concrete input: a descriptor without XPTS. -/
theorem C3_xpts_witness :
    ∃ t, resolveDims [("IKKF", "REAL")] = .error (.valueError t) :=
  C3_xpts.1 [("IKKF", "REAL")] (by with_unfolding_all decide)

/-- C4 (amended: a descriptor defining a nonempty `XNAM` (resp. `YNAM`)
without `XUNI` (resp. `YUNI`) raises a `KeyError` — otherwise as claimed):
the parser fails with `FileNotFound` on a missing file and `IOError` on a
read failure; on readable content its only possible error is that
`KeyError`; and when it succeeds with a nonempty `XNAM` present, the
canonical `XAXIS_NAME`/`XAXIS_UNIT` keys are cross-populated from
`XNAM`/`XUNI`. -/
theorem C4_dsc_reader :
    readDscFile .missing = .error .fileNotFound ∧
    readDscFile .unreadable = .error (.ioError .readFail) ∧
    (∀ (lines : List String) (e : PyErr),
        readDscFile (.content lines) = .error e → ∃ k, e = .keyError k) ∧
    (∀ (lines : List String) (d : Dict) (v u : String),
        readDscFile (.content lines) = .ok d →
        dictGet (parseDscLoop [] (processLines lines)) "XNAM" = some v → v ≠ "" →
        dictGet (parseDscLoop [] (processLines lines)) "XUNI" = some u →
        dictGet d "XAXIS_NAME" = some v ∧ dictGet d "XAXIS_UNIT" = some u) := by
  refine ⟨rfl, rfl, ?_, ?_⟩
  · intro lines e h
    exact aliasStep_error _ _ h
  · intro lines d v u h hv hne hu
    exact aliasStep_ok_x _ _ _ _ h hv hne hu

/-- C4 counterexample: a descriptor whose only line is `XNAM a` (a
nonempty axis name, no `XUNI`) makes the parser raise a `KeyError` — a
third kind of error beyond the claimed FileNotFound/IOError. -/
theorem C4_counterexample :
    readDscFile (.content ["XNAM a"]) = .error (.keyError "XUNI") := by
  with_unfolding_all rfl

/-- Witness for C4 at a concrete input: `XNAM a` with `XUNI G` parses and
cross-populates the canonical keys. -/
theorem C4_dsc_reader_witness :
    dictGet [("XNAM", "a"), ("XUNI", "G"), ("XAXIS_NAME", "a"), ("XAXIS_UNIT", "G")]
      "XAXIS_NAME" = some "a" ∧
    dictGet [("XNAM", "a"), ("XUNI", "G"), ("XAXIS_NAME", "a"), ("XAXIS_UNIT", "G")]
      "XAXIS_UNIT" = some "G" :=
  C4_dsc_reader.2.2.2 ["XNAM a", "XUNI G"] _ "a" "G" (by with_unfolding_all rfl)
    (by with_unfolding_all decide) (by decide) (by with_unfolding_all decide)

/-- C7: a BSEQ value whose upper-casing is neither `BIG` nor `LIT` makes
the byte-order resolver — and hence `load`, once the descriptor read and
the dimension resolution succeed — raise a `ValueError` (FormatError
family); an absent BSEQ resolves to big-endian with a warning instead of
failing; and concretely a load without BSEQ succeeds with exactly that
warning. -/
theorem C7_byte_order :
    (∀ (d : Dict) (v : String), dictGet d "BSEQ" = some v →
        asciiUpper v ≠ "BIG" → asciiUpper v ≠ "LIT" →
        resolveByteOrder d = .error (.valueError .bseq)) ∧
    (∀ (d : Dict), dictGet d "BSEQ" = none →
        resolveByteOrder d = .ok (.be, [.noBSEQ])) ∧
    (∀ (fs : FS) (sc : String) (f g : PyF → PyF) (p : Dict) (q : ℤ × ℤ × ℤ) (v : String),
        readDscFile fs.dsc = .ok p → resolveDims p = .ok q →
        dictGet p "BSEQ" = some v → asciiUpper v ≠ "BIG" → asciiUpper v ≠ "LIT" →
        load fs sc f g = .error (.valueError .bseq)) ∧
    (load fsC7 "" pyfId pyfId).toOption.map (fun r => r.warns) = some [Warn.noBSEQ] := by
  refine ⟨?_, ?_, ?_, ?_⟩
  · intro d v hv h1 h2
    simp [resolveByteOrder, hv, h1, h2]
  · intro d h
    simp [resolveByteOrder, h]
  · intro fs sc f g p q v hp hd hv h1 h2
    have hb : resolveByteOrder p = .error (.valueError .bseq) := by
      simp [resolveByteOrder, hv, h1, h2]
    simp only [load, hp, exceptBindOk, hd, hb, exceptBindError]
  · with_unfolding_all decide

/-- Witness for C7 at a concrete input: `BSEQ XYZ` is rejected. -/
theorem C7_byte_order_witness :
    resolveByteOrder [("BSEQ", "XYZ")] = .error (.valueError .bseq) :=
  C7_byte_order.1 [("BSEQ", "XYZ")] "XYZ" (by with_unfolding_all decide)
    (by decide) (by decide)

/-- C8 (amended: restricted to loads with nonempty data, since the whole
scaling block is skipped silently for empty data): for the `n` scaling
request on nonempty data, a true pre-averaged flag (SctNorm) with a valid
positive count leaves the data unchanged with a warning, a missing,
non-integer or non-positive AVGS leaves the data unchanged with a warning,
and otherwise every element is divided by the integer count. -/
theorem C8_scale_n :
    ∀ (d : Dict) (data : PyMatrix) (f g : PyF → PyF), 0 < data.size →
      (∀ n : ℤ, (dictGet d "AVGS").bind pyInt? = some n → 0 < n →
          asciiLower ((dictGet d "SctNorm").getD "false") = "true" →
          applyScaling "n" d data f g = (data, [Warn.scaleNPrescaled])) ∧
      ((((dictGet d "AVGS").bind pyInt? = none) ∨
        (∃ n : ℤ, (dictGet d "AVGS").bind pyInt? = some n ∧ n ≤ 0)) →
          applyScaling "n" d data f g = (data, [Warn.scaleNInvalid])) ∧
      (∀ n : ℤ, (dictGet d "AVGS").bind pyInt? = some n → 0 < n →
          asciiLower ((dictGet d "SctNorm").getD "false") ≠ "true" →
          applyScaling "n" d data f g = (data.divBy (PyF.fin (n : ℚ)), []) ∧
          (∀ k, k < data.size →
            (applyScaling "n" d data f g).1.entryRe k =
              (data.entryRe k) / PyF.fin (n : ℚ))) := by
  intro d data f g hsz
  have hguard : ¬ (("n" : String) = "" ∨ data.size = 0) := by
    rintro (h | h)
    · exact absurd h (by decide)
    · omega
  have hcn : ("n" : String).data.contains 'n' = true := by decide
  have hg : ("n" : String).data.contains 'G' = false := by decide
  have hc' : ("n" : String).data.contains 'c' = false := by decide
  have hp' : ("n" : String).data.contains 'P' = false := by decide
  have ht' : ("n" : String).data.contains 'T' = false := by decide
  refine ⟨?_, ?_, ?_⟩
  · intro n hn hpos hpre
    have hdec : decide (asciiLower ((dictGet d "SctNorm").getD "false") = "true") = true := by
      simp [hpre]
    unfold applyScaling
    rw [if_neg hguard]
    simp only [hn, hdec, stepG_skip _ _ _ _ hg, stepC_skip _ _ _ _ hc',
      stepP_skip _ _ _ _ _ hp', stepT_skip _ _ _ ht']
    simp [stepN, hcn, hpos]
  · intro hc
    unfold applyScaling
    rw [if_neg hguard]
    rcases hc with hn | ⟨n, hn, hle⟩
    · simp only [hn, stepG_skip _ _ _ _ hg, stepC_skip _ _ _ _ hc',
        stepP_skip _ _ _ _ _ hp', stepT_skip _ _ _ ht']
      simp [stepN, hcn]
    · simp only [hn, stepG_skip _ _ _ _ hg, stepC_skip _ _ _ _ hc',
        stepP_skip _ _ _ _ _ hp', stepT_skip _ _ _ ht']
      simp [stepN, hcn, hle, not_lt.mpr hle]
  · intro n hn hpos hpre
    have hdec : decide (asciiLower ((dictGet d "SctNorm").getD "false") = "true") = false := by
      simp [hpre]
    have heq : applyScaling "n" d data f g = (data.divBy (PyF.fin (n : ℚ)), []) := by
      unfold applyScaling
      rw [if_neg hguard]
      simp only [hn, hdec, stepG_skip _ _ _ _ hg, stepC_skip _ _ _ _ hc',
        stepP_skip _ _ _ _ _ hp', stepT_skip _ _ _ ht']
      simp [stepN, hcn, hpos]
    refine ⟨heq, ?_⟩
    intro k hk
    rw [heq]
    exact divBy_entryRe data _ k hk

/-- C8 counterexample: a load with `YPTS 0` (so the matrix is empty),
`SctNorm true` and `AVGS 5`, requesting `n` scaling, succeeds with NO
warning at all — the claimed "a warning is emitted" fails because the
scaling block is guarded by `data.size > 0`. -/
theorem C8_counterexample :
    (readDscFile fsC8.dsc).toOption.map
      (fun p => (asciiLower ((dictGet p "SctNorm").getD "false"),
                 (dictGet p "AVGS").bind pyInt?)) = some ("true", some 5) ∧
    (load fsC8 "n" pyfId pyfId).toOption.map (fun r => (r.warns, r.data.size)) =
      some ([], 0) := by
  with_unfolding_all decide

/-- Witness for C8 at a concrete input: pre-averaged flag set, data
unchanged with the warning. -/
theorem C8_scale_n_witness :
    applyScaling "n" [("SctNorm", "true"), ("AVGS", "5")] ⟨.real [.fin 4], [1]⟩ pyfId pyfId =
      (⟨.real [.fin 4], [1]⟩, [Warn.scaleNPrescaled]) :=
  (C8_scale_n [("SctNorm", "true"), ("AVGS", "5")] ⟨.real [.fin 4], [1]⟩ pyfId pyfId
    (by decide)).1 5 (by with_unfolding_all decide) (by decide)
    (by with_unfolding_all decide)

/-- C9 (amended: restricted to loads with nonempty data, since the whole
scaling block is skipped silently for empty data): for the `P` scaling
request on nonempty data, a non-CW experiment type (EXPT, default CW,
compared case-insensitively) leaves the data unchanged with a warning,
and on a CW experiment with `power_mW = power_W * 1000` present and
positive every element is divided by `sqrt(power_mW)` (the square-root
function taken as a parameter). -/
theorem C9_scale_P :
    ∀ (d : Dict) (data : PyMatrix) (f g : PyF → PyF), 0 < data.size →
      (asciiUpper ((dictGet d "EXPT").getD "CW") ≠ "CW" →
          applyScaling "P" d data f g = (data, [Warn.scalePNotCw])) ∧
      (∀ (p : ℚ) (s : String), asciiUpper ((dictGet d "EXPT").getD "CW") = "CW" →
          dictGet d "MWPW" = some s → pyFloat? s = some (PyF.fin p) → 0 < p →
          applyScaling "P" d data f g = (data.divBy (f (PyF.fin (p * 1000))), []) ∧
          (∀ k, k < data.size →
            (applyScaling "P" d data f g).1.entryRe k =
              (data.entryRe k) / f (PyF.fin (p * 1000)))) := by
  intro d data f g hsz
  have hguard : ¬ (("P" : String) = "" ∨ data.size = 0) := by
    rintro (h | h)
    · exact absurd h (by decide)
    · omega
  have hcp : ("P" : String).data.contains 'P' = true := by decide
  have hn' : ("P" : String).data.contains 'n' = false := by decide
  have hg : ("P" : String).data.contains 'G' = false := by decide
  have hc' : ("P" : String).data.contains 'c' = false := by decide
  have ht' : ("P" : String).data.contains 'T' = false := by decide
  constructor
  · intro hcw
    have hdec : decide (asciiUpper ((dictGet d "EXPT").getD "CW") = "CW") = false := by
      simp [hcw]
    unfold applyScaling
    rw [if_neg hguard]
    simp only [hdec, stepN_skip _ _ _ _ hn', stepG_skip _ _ _ _ hg,
      stepC_skip _ _ _ _ hc', stepT_skip _ _ _ ht']
    simp [stepP, hcp]
  · intro p s hcw hs hps hp
    have hdec : decide (asciiUpper ((dictGet d "EXPT").getD "CW") = "CW") = true := by
      simp [hcw]
    have hgt : (PyF.fin (p * 1000)).gtZero = true := by
      simp only [PyF.gtZero, decide_eq_true_eq]
      nlinarith
    have heq : applyScaling "P" d data f g = (data.divBy (f (PyF.fin (p * 1000))), []) := by
      unfold applyScaling
      rw [if_neg hguard]
      simp only [hs, hps, hdec, stepN_skip _ _ _ _ hn', stepG_skip _ _ _ _ hg,
        stepC_skip _ _ _ _ hc', stepT_skip _ _ _ ht']
      simp [stepP, hcp, hps, PyF.mul_fin, hgt]
    refine ⟨heq, ?_⟩
    intro k hk
    rw [heq]
    exact divBy_entryRe data _ k hk

/-- C9 counterexample: a load with `YPTS 0` (so the matrix is empty),
`EXPT PULSE` and a present positive `MWPW`, requesting `P` scaling,
succeeds with NO warning at all — the claimed "a warning is produced"
fails because the scaling block is guarded by `data.size > 0`. -/
theorem C9_counterexample :
    (readDscFile fsC9.dsc).toOption.map
      (fun p => (asciiUpper ((dictGet p "EXPT").getD "CW"),
                 (dictGet p "MWPW").bind pyFloat?)) =
      some ("PULSE", some (.fin (2 / 1000))) ∧
    (load fsC9 "P" pyfId pyfId).toOption.map (fun r => (r.warns, r.data.size)) =
      some ([], 0) := by
  with_unfolding_all decide

/-- Witness for C9 at a concrete input: `P` requested on a pulsed
experiment, data unchanged with the warning. -/
theorem C9_scale_P_witness :
    applyScaling "P" [("EXPT", "PULSE")] ⟨.real [.fin 4], [1]⟩ pyfId pyfId =
      (⟨.real [.fin 4], [1]⟩, [Warn.scalePNotCw]) :=
  (C9_scale_P [("EXPT", "PULSE")] ⟨.real [.fin 4], [1]⟩ pyfId pyfId (by decide)).1
    (by with_unfolding_all decide)

end SpektroDb
